import Mathlib

/-!
# Verification of the raisin client runtime against its specification

This development shallowly embeds the data model and operations of the
raisin robot-control client runtime (Discovery, Connection, Subscription
Channel, Service Invoker) together with the pure fragments of the example
programs that exercise it (`printConnections`, the battery-percentage
callback, the actuator status classification), and proves or refutes the
specified properties.

The example programs under `src/examples` are the only visible source; the
runtime itself (raisin_network / raisin_sdk) is reconstructed here from the
specification, with each such definition marked `Modelled from the spec:`.
-/

namespace Raisin

/-- Type descriptor attached to a publisher or service catalog entry
(`desc.dataType` in example_connect.cpp). -/
structure TypeDescriptor where
  dataType : String
deriving DecidableEq, Repr

/-- Modelled from the spec: §3 — network type of a node, `{TCP, WebSocket}`. -/
inductive NetworkType
  | TCP
  | WebSocket
deriving DecidableEq, Repr

/-- Modelled from the spec: §3 — NodeAdvertisement
`{id, ip, port, networkType, publishers, services}`, produced by Discovery,
immutable once received.  Mappings are embedded as association lists. -/
structure NodeAdvertisement where
  id : String
  ip : String
  port : Int
  networkType : NetworkType
  publishers : List (String × TypeDescriptor)
  services : List (String × TypeDescriptor)
deriving DecidableEq, Repr

/-- Modelled from the spec: §3 — ActuatorState
`{name, status: integer status code, temperature, position, velocity,
effort}`.  Real-valued telemetry fields are embedded as rationals. -/
structure ActuatorState where
  name : String
  status : Int
  temperature : ℚ
  position : ℚ
  velocity : ℚ
  effort : ℚ
deriving DecidableEq, Repr

/-- Modelled from the spec: §3 — StateFrame (ExtendedRobotState)
`{voltage, current, min_voltage, max_voltage, body_temperature,
locomotion_state, joy_source, actuators}`.  Real-valued fields are embedded
as rationals; the claims about them concern only field algebra, not
floating-point rounding. -/
structure ExtendedRobotState where
  voltage : ℚ
  current : ℚ
  min_voltage : ℚ
  max_voltage : ℚ
  body_temperature : ℚ
  locomotion_state : Int
  joy_source : Int
  actuators : List ActuatorState
deriving DecidableEq, Repr

/-! ## Actuator status classification

The classification function `isActuatorStatusError` lives in the missing
raisin_sdk; it is modelled from the spec (§3: "classification is a pure
function of the code"; §9: "a small lookup table plus a classification
function") with the concrete code values documented in
example_actuator_status.cpp lines 37-41:
39 = OPERATION_ENABLED, 33 = READY_TO_SWITCH_ON, 35 = SWITCHED_ON are
normal; 0, 8, 99 are error states. -/

/-- Modelled from the spec: the known-good actuator status codes
(operation-enabled, ready-to-switch-on, switched-on). -/
def knownGoodActuatorStatuses : List Int := [39, 33, 35]

/-- Modelled from the spec: the documented error status codes. -/
def knownErrorActuatorStatuses : List Int := [0, 8, 99]

/-- Modelled from the spec: `isActuatorStatusError` — classification is a
pure function of the integer status code alone; a code outside the
known-good lookup table is treated as an error. -/
def isActuatorStatusError (status : Int) : Bool :=
  !(knownGoodActuatorStatuses.contains status)

/-! ## Battery percentage (example_battery.cpp, lines 40-48)

The subscription callback computes
`(state.voltage - state.min_voltage) / (state.max_voltage - state.min_voltage) * 100.0`
unconditionally; there is no guard on the divisor.  The embedding is total
exactly like the C++ expression. -/

/-- The divisor of the battery-percentage computation:
`state.max_voltage - state.min_voltage`. -/
def batteryDivisor (s : ExtendedRobotState) : ℚ :=
  s.max_voltage - s.min_voltage

/-- Battery percentage as computed by the callback in example_battery.cpp:
`(voltage - min_voltage) / (max_voltage - min_voltage) * 100.0`,
applied to every delivered frame with no guard on the divisor. -/
def batteryPercentage (s : ExtendedRobotState) : ℚ :=
  (s.voltage - s.min_voltage) / (s.max_voltage - s.min_voltage) * 100

/-! ## Discovery (spec §4.1)

Discovery itself lives in the missing raisin_network; it is modelled from
the spec: a table of advertisements keyed by id, last-writer-wins on
arrival, entries expiring after a fixed staleness window.  Time is a
discrete `Nat` clock and the received advertisements are an explicit list
of (arrival time, advertisement) events processed in order. -/

/-- Modelled from the spec: §4.1 — a Discovery table record: the
advertisement last received for an id together with its arrival time
(which determines the record's expiry). -/
structure DiscoveryEntry where
  ad : NodeAdvertisement
  lastSeen : Nat
deriving DecidableEq, Repr

/-- Modelled from the spec: §4.1 — receiving an advertisement for an id
"resets its expiry and replaces its record in place (last-writer-wins, no
merge)": any previous record with the same id is dropped and the new
advertisement is recorded with the current time. -/
def updateTable (table : List DiscoveryEntry) (now : Nat)
    (ad : NodeAdvertisement) : List DiscoveryEntry :=
  ⟨ad, now⟩ :: table.filter (fun e => e.ad.id != ad.id)

/-- Modelled from the spec: the Discovery table resulting from processing a
sequence of timestamped advertisement arrivals in order. -/
def discoveryTable (events : List (Nat × NodeAdvertisement)) :
    List DiscoveryEntry :=
  events.foldl (fun t e => updateTable t e.1 e.2) []

/-- Modelled from the spec: §4.1 — an entry is fresh at time `now` iff its
last-seen advertisement is not older than the staleness window. -/
def freshEntry (window now : Nat) (e : DiscoveryEntry) : Bool :=
  decide (now ≤ e.lastSeen + window)

/-- Modelled from the spec: §4.1 — `getAllConnections` returns the current
snapshot: the advertisements whose table entries have not expired.  The
negative-port filter is applied by the consumer (`printConnections`,
example_connect.cpp line 50), not here: negative-port entries "represent
self or malformed entries" and are part of the snapshot. -/
def getAllConnections (window now : Nat)
    (events : List (Nat × NodeAdvertisement)) : List NodeAdvertisement :=
  ((discoveryTable events).filter (freshEntry window now)).map
    DiscoveryEntry.ad

/-- The rows displayed by `printConnections` (example_connect.cpp lines
38-63): every advertisement returned by `getAllConnections` except those
skipped by `if (conn.port < 0) continue;`. -/
def printConnections (connections : List NodeAdvertisement) :
    List NodeAdvertisement :=
  connections.filter (fun c => !(decide (c.port < 0)))

/-- Modelled from the spec: the Discovery self-advertisement as it appears
in the received stream — §4.1 broadcasts a self-advertisement, and entries
with a negative port "represent self or malformed entries". -/
def selfAdvertisement : NodeAdvertisement :=
  { id := "connect_example", ip := "127.0.0.1", port := -1
    networkType := NetworkType.TCP, publishers := [], services := [] }

/-- The advertisement of the §8 scenario: id "r1" at 10.0.0.5 port 7000
with publisher "state" and service "stand_up". -/
def sampleAdvertisement : NodeAdvertisement :=
  { id := "r1", ip := "10.0.0.5", port := 7000
    networkType := NetworkType.TCP
    publishers := [("state", ⟨"ExtendedRobotState"⟩)]
    services := [("stand_up", ⟨"Command"⟩)] }

/-! ## Service Invoker (spec §4.4, §9)

The Service Invoker lives in the missing runtime; it is modelled from the
spec as a pending-call table keyed by correlationId ("single-waiter
completion slots keyed by correlationId (exactly-once fulfillment)"),
driven by the events the background I/O thread and the callers produce. -/

/-- Modelled from the spec: §3 — ServiceResult `{success, message}`. -/
structure ServiceResult where
  success : Bool
  message : String
deriving DecidableEq, Repr

/-- Modelled from the spec: §4.4 — the single outcome delivered for a
call: the remote's reported result, or a locally synthesized timeout or
disconnection failure. -/
inductive CallOutcome
  | remote (r : ServiceResult)
  | timedOut
  | disconnected
deriving DecidableEq, Repr

/-- Modelled from the spec: the ServiceResult surfaced to the caller for
each outcome — a locally synthesized failure has `success = false` and a
message describing timeout or disconnection (§4.4, §8). -/
def outcomeResult : CallOutcome → ServiceResult
  | CallOutcome.remote r => r
  | CallOutcome.timedOut => ⟨false, "service call timed out"⟩
  | CallOutcome.disconnected => ⟨false, "disconnected"⟩

/-- Modelled from the spec: the status of one call in the pending-call
table: pending with its timeout deadline, or completed with its single
outcome. -/
inductive CallStatus
  | pending (deadline : Nat)
  | done (o : CallOutcome)
deriving DecidableEq, Repr

/-- Modelled from the spec: §4.4 — the Service Invoker state: the
fresh-correlationId counter and the call table keyed by correlationId. -/
structure InvokerState where
  nextCid : Nat
  calls : List (Nat × CallStatus)
deriving DecidableEq, Repr

/-- Modelled from the spec: the events the Service Invoker reacts to: a
caller issuing a call with its deadline (`call` generates the fresh
correlationId itself), the background I/O thread observing a response
carrying a correlationId, the clock reaching `now` (timeouts fire), and
the connection disconnecting. -/
inductive InvokerEvent
  | issue (deadline : Nat)
  | response (cid : Nat) (success : Bool) (message : String)
  | tick (now : Nat)
  | disconnect
deriving DecidableEq, Repr

/-- Modelled from the spec: §4.4 — one Service Invoker step.  `issue`
registers a pending call under a freshly generated correlationId; a
`response` completes the matching pending call with the remote's reported
result (a response for an unknown or already-completed correlationId is
dropped, so at most one outcome is ever delivered); a `tick` times out
every pending call whose deadline has elapsed; `disconnect` fails every
pending call immediately with a disconnection failure. -/
def invokerStep (s : InvokerState) : InvokerEvent → InvokerState
  | InvokerEvent.issue d =>
      ⟨s.nextCid + 1, s.calls ++ [(s.nextCid, CallStatus.pending d)]⟩
  | InvokerEvent.response cid ok msg =>
      ⟨s.nextCid, s.calls.map fun c =>
        match c with
        | (c1, CallStatus.pending _) =>
            if c1 = cid then
              (c1, CallStatus.done (CallOutcome.remote ⟨ok, msg⟩))
            else c
        | _ => c⟩
  | InvokerEvent.tick now =>
      ⟨s.nextCid, s.calls.map fun c =>
        match c with
        | (c1, CallStatus.pending d) =>
            if d ≤ now then (c1, CallStatus.done CallOutcome.timedOut) else c
        | _ => c⟩
  | InvokerEvent.disconnect =>
      ⟨s.nextCid, s.calls.map fun c =>
        match c with
        | (c1, CallStatus.pending _) =>
            (c1, CallStatus.done CallOutcome.disconnected)
        | _ => c⟩

/-- Modelled from the spec: the Service Invoker state after processing a
sequence of events in order. -/
def invokerRun (s : InvokerState) (es : List InvokerEvent) : InvokerState :=
  es.foldl invokerStep s

/-- The initial Service Invoker state: no calls, counter at zero. -/
def invokerInit : InvokerState := ⟨0, []⟩

/-- The invariant tying the call table to the correlationId counter: the
table's keys are exactly the correlationIds generated so far, in issue
order. -/
def invokerKeysInv (s : InvokerState) : Prop :=
  s.calls.map Prod.fst = List.range s.nextCid

/-! ## Connection and handshake (spec §4.2)

`connect` lives in the missing runtime; it is modelled from the spec as a
polling wait loop on a discrete clock: each iteration is one polling
interval, the cancelFlag is polled every iteration, the id is resolved
against the Discovery snapshot until found, then the transport is open and
the loop waits for the handshake acknowledgement; on timeout or
cancellation the partially-opened transport is closed and null returned. -/

/-- Modelled from the spec: §3 — Connection `{id, ip, networkType,
connected, publishers, services}` (catalogs populated from the node after
handshake). -/
structure Connection where
  id : String
  ip : String
  networkType : NetworkType
  connected : Bool
  publishers : List (String × TypeDescriptor)
  services : List (String × TypeDescriptor)
deriving DecidableEq, Repr

/-- Modelled from the spec: the phase of an in-flight connect attempt —
still resolving the id against the Discovery snapshot, or transport opened
to the resolved node and waiting for the handshake acknowledgement. -/
inductive ConnectPhase
  | resolving
  | handshaking (ad : NodeAdvertisement)
deriving DecidableEq, Repr

/-- Modelled from the spec: what a finished connect attempt leaves behind:
the returned Connection (null on failure), whether the transport is left
open, and the polling tick at which the wait ended. -/
structure ConnectOutcome where
  connection : Option Connection
  transportOpen : Bool
  finishedAt : Nat
deriving DecidableEq, Repr

/-- Modelled from the spec: §4.2 — on handshake acknowledgement the
Connection's publisher/service catalogs are populated and `connected` is
set to true. -/
def mkConnectedConnection (ad : NodeAdvertisement) : Connection :=
  ⟨ad.id, ad.ip, ad.networkType, true, ad.publishers, ad.services⟩

/-- Modelled from the spec: §4.2 — the connect wait loop, one iteration
per polling interval, at most `fuel` iterations left.  `resolve t` is the
Discovery lookup for the requested id at tick `t`, `ack t` whether the
handshake acknowledgement has been observed by tick `t`, and `cancel t`
the cancelFlag at tick `t`.  Cancellation is polled first each iteration;
on cancellation or on running out of fuel (timeout) the partially-opened
transport is closed (`transportOpen = false`) and null is returned. -/
def connectAux (resolve : Nat → Option NodeAdvertisement)
    (ack : Nat → Bool) (cancel : Nat → Bool) :
    ConnectPhase → Nat → Nat → ConnectOutcome
  | _, t, 0 => ⟨none, false, t⟩
  | phase, t, fuel + 1 =>
    if cancel t then ⟨none, false, t⟩
    else
      match phase with
      | ConnectPhase.resolving =>
        match resolve t with
        | some ad =>
            connectAux resolve ack cancel (ConnectPhase.handshaking ad)
              (t + 1) fuel
        | none =>
            connectAux resolve ack cancel ConnectPhase.resolving (t + 1) fuel
      | ConnectPhase.handshaking ad =>
        if ack t then ⟨some (mkConnectedConnection ad), true, t⟩
        else
          connectAux resolve ack cancel (ConnectPhase.handshaking ad)
            (t + 1) fuel

/-- Modelled from the spec: §4.2 — `connect(id, timeoutSeconds,
cancelFlag)`: the wait loop started in the resolving phase at tick 0 with
`timeoutTicks` polling intervals of budget. -/
def connect (resolve : Nat → Option NodeAdvertisement)
    (ack : Nat → Bool) (cancel : Nat → Bool)
    (timeoutTicks : Nat) : ConnectOutcome :=
  connectAux resolve ack cancel ConnectPhase.resolving 0 timeoutTicks

/-! ## Subscription Channel (spec §4.3)

The Subscription Channel lives in the missing runtime; it is modelled from
the spec: the background I/O thread takes each incoming frame of a
connection in arrival order and invokes every registered callback exactly
once per frame.  Subscribers are identified by registration ids and the
dispatch is recorded as an explicit invocation log. -/

/-- Modelled from the spec: §4.3 — dispatch of a list of indexed incoming
frames to the registered subscribers: for each frame, in arrival order,
every subscriber receives exactly one invocation.  The result is the full
invocation log `(subscriber, (arrival index, frame))` in dispatch order. -/
def channelDispatch (subs : List Nat) :
    List (Nat × ExtendedRobotState) → List (Nat × Nat × ExtendedRobotState)
  | [] => []
  | (i, f) :: rest =>
      subs.map (fun sid => (sid, (i, f))) ++ channelDispatch subs rest

/-- Modelled from the spec: the invocation log produced for a connection's
incoming frame stream, each frame tagged with its arrival index. -/
def subscriptionLog (subs : List Nat) (frames : List ExtendedRobotState) :
    List (Nat × Nat × ExtendedRobotState) :=
  channelDispatch subs frames.enum

/-- The sequence of (arrival index, frame) invocations one subscriber
observes, in dispatch order. -/
def perSubscriberLog (sid : Nat)
    (log : List (Nat × Nat × ExtendedRobotState)) :
    List (Nat × ExtendedRobotState) :=
  (log.filter (fun x => x.1 == sid)).map (fun x => x.2)

/-! ## Connection state machine (spec §3 invariants, §4.2)

The per-connection lifecycle is modelled from the spec as a transition
system driven by the events the background I/O thread produces: handshake
completion, frame arrival, disconnection.  `connected` is set only by
handshake completion, and a frame is delivered to the callbacks only when
the connection is currently marked connected. -/

/-- Modelled from the spec: the observable state of one Connection: has
its handshake ever completed, is it currently marked connected, and the
frames delivered to its subscription callbacks so far. -/
structure ConnState where
  handshakeDone : Bool
  connected : Bool
  deliveredFrames : List ExtendedRobotState
deriving DecidableEq, Repr

/-- Modelled from the spec: the per-connection events of the background
I/O thread. -/
inductive ConnEvent
  | handshakeComplete
  | frameArrived (f : ExtendedRobotState)
  | disconnectConn
deriving DecidableEq, Repr

/-- Modelled from the spec: §4.2 and §3 invariants — `connected` is set
to true only on handshake completion; an arriving frame is delivered to
the callbacks only if the connection is currently marked connected
(otherwise it is dropped); disconnection clears `connected`. -/
def connStep (s : ConnState) : ConnEvent → ConnState
  | ConnEvent.handshakeComplete => ⟨true, true, s.deliveredFrames⟩
  | ConnEvent.frameArrived f =>
      if s.connected then
        ⟨s.handshakeDone, s.connected, s.deliveredFrames ++ [f]⟩
      else s
  | ConnEvent.disconnectConn => ⟨s.handshakeDone, false, s.deliveredFrames⟩

/-- Modelled from the spec: the Connection state reached from the initial
(not handshaken, not connected, nothing delivered) state by a sequence of
events. -/
def connRun (es : List ConnEvent) : ConnState :=
  es.foldl connStep ⟨false, false, []⟩

end Raisin

namespace Raisin

/-- C2: `isActuatorStatusError` is a pure function of the integer status
code alone (it is a closed function `Int → Bool` over a fixed lookup
table); it returns `false` for the known-good codes 39, 33 and 35, and
`true` for the error codes 0, 8 and 99. -/
theorem isActuatorStatusError_classification :
    isActuatorStatusError 39 = false ∧
    isActuatorStatusError 33 = false ∧
    isActuatorStatusError 35 = false ∧
    isActuatorStatusError 0 = true ∧
    isActuatorStatusError 8 = true ∧
    isActuatorStatusError 99 = true := by
  decide

/-- C10: the battery callback divides `voltage - min_voltage` by
`max_voltage - min_voltage` with no guard on the divisor: whenever
`max_voltage ≠ min_voltage` the divisor is nonzero and the computed
percentage satisfies the intended algebraic identity, but for a frame with
`max_voltage = min_voltage` the divisor is zero. -/
theorem batteryPercentage_divisor :
    ∀ s : ExtendedRobotState,
      (s.max_voltage = s.min_voltage → batteryDivisor s = 0) ∧
      (s.max_voltage ≠ s.min_voltage →
        batteryDivisor s ≠ 0 ∧
        batteryPercentage s * batteryDivisor s =
          (s.voltage - s.min_voltage) * 100) := by
  intro s
  constructor
  · intro h
    simp [batteryDivisor, h]
  · intro h
    have hd : batteryDivisor s ≠ 0 := sub_ne_zero_of_ne h
    refine ⟨hd, ?_⟩
    unfold batteryPercentage batteryDivisor
    field_simp [batteryDivisor] at hd ⊢

/-- A concrete state frame used by witnesses: 20 V battery on a 15-25 V
range, all actuators absent. -/
def sampleState : ExtendedRobotState :=
  { voltage := 20, current := 3, min_voltage := 15, max_voltage := 25
    body_temperature := 40, locomotion_state := 1, joy_source := 0
    actuators := [] }

/-- A concrete state frame whose voltage range is degenerate
(`max_voltage = min_voltage`). -/
def degenerateState : ExtendedRobotState :=
  { voltage := 20, current := 3, min_voltage := 20, max_voltage := 20
    body_temperature := 40, locomotion_state := 1, joy_source := 0
    actuators := [] }

/-- Witness for C10: at the concrete degenerate frame the divisor is zero. -/
theorem batteryPercentage_divisor_witness :
    batteryDivisor degenerateState = 0 :=
  (batteryPercentage_divisor degenerateState).1 (by decide)

/-- C1 is false as stated: after Discovery receives the self-advertisement
(port −1), the snapshot returned by `getAllConnections` itself contains an
entry with a negative port.  The negative-port filtering is performed by
the caller `printConnections` (example_connect.cpp line 50), not by
`getAllConnections`. -/
theorem getAllConnections_negative_port_counterexample :
    selfAdvertisement ∈ getAllConnections 10 0 [(0, selfAdvertisement)] ∧
    selfAdvertisement.port < 0 := by
  decide

/-- C1 (amended): entries with a negative port may appear in the result of
`getAllConnections` (they represent self or malformed entries); the
consumer-side filter in `printConnections` removes them, so the displayed
connection list never contains an entry whose port is negative. -/
theorem printConnections_no_negative_port :
    ∀ (connections : List NodeAdvertisement) (ad : NodeAdvertisement),
      ad ∈ printConnections connections → 0 ≤ ad.port := by
  intro conns ad h
  unfold printConnections at h
  rw [List.mem_filter] at h
  simpa [not_lt] using h.2

/-- Witness for the amended C1 at a concrete snapshot holding both the
scenario advertisement and the self entry. -/
theorem printConnections_no_negative_port_witness :
    0 ≤ sampleAdvertisement.port :=
  printConnections_no_negative_port [sampleAdvertisement, selfAdvertisement]
    sampleAdvertisement (by decide)

/-- C6: the snapshot never contains an entry whose last-seen advertisement
is older than the staleness window — every advertisement returned by
`getAllConnections` comes from a table entry with
`now ≤ lastSeen + window` — and receiving an advertisement for an id
replaces that id's record entirely with the new advertisement stamped at
the current time (last-writer-wins, no merging of fields). -/
theorem discovery_staleness_and_lastWriterWins :
    (∀ window now events ad, ad ∈ getAllConnections window now events →
        ∃ e, e ∈ discoveryTable events ∧ e.ad = ad ∧
          now ≤ e.lastSeen + window) ∧
    (∀ table now ad,
        (updateTable table now ad).filter (fun e => e.ad.id == ad.id) =
          [⟨ad, now⟩]) := by
  constructor
  · intro window now events ad h
    unfold getAllConnections at h
    rw [List.mem_map] at h
    obtain ⟨e, he, rfl⟩ := h
    rw [List.mem_filter] at he
    refine ⟨e, he.1, rfl, ?_⟩
    have := he.2
    unfold freshEntry at this
    exact of_decide_eq_true this
  · intro table now ad
    unfold updateTable
    rw [List.filter_cons]
    simp [List.filter_filter]

/-- Witness for C6: a concrete event stream, queried within the window. -/
theorem discovery_staleness_witness :
    ∃ e, e ∈ discoveryTable [(0, sampleAdvertisement)] ∧
      e.ad = sampleAdvertisement ∧ 5 ≤ e.lastSeen + 10 :=
  discovery_staleness_and_lastWriterWins.1 10 5 [(0, sampleAdvertisement)]
    sampleAdvertisement (by decide)

/-- Every non-`issue` invoker step leaves the keys of the call table
unchanged elementwise. -/
theorem invokerStep_keys (s : InvokerState) (e : InvokerEvent) :
    (invokerStep s e).calls.map Prod.fst =
      s.calls.map Prod.fst ++
        (match e with | InvokerEvent.issue _ => [s.nextCid] | _ => []) := by
  cases e with
  | issue d => simp [invokerStep]
  | response cid ok msg =>
      simp only [invokerStep, List.map_map, List.append_nil]
      refine List.map_congr_left ?_
      intro c _
      rcases c with ⟨c1, st⟩
      cases st with
      | pending d => by_cases h : c1 = cid <;> simp [h]
      | done o => rfl
  | tick now =>
      simp only [invokerStep, List.map_map, List.append_nil]
      refine List.map_congr_left ?_
      intro c _
      rcases c with ⟨c1, st⟩
      cases st with
      | pending d => by_cases h : d ≤ now <;> simp [h]
      | done o => rfl
  | disconnect =>
      simp only [invokerStep, List.map_map, List.append_nil]
      refine List.map_congr_left ?_
      intro c _
      rcases c with ⟨c1, st⟩
      cases st with
      | pending d => rfl
      | done o => rfl

/-- The keys invariant is preserved by every step. -/
theorem invokerStep_keysInv (s : InvokerState) (e : InvokerEvent)
    (h : invokerKeysInv s) : invokerKeysInv (invokerStep s e) := by
  unfold invokerKeysInv at h ⊢
  rw [invokerStep_keys, h]
  cases e with
  | issue d => simp [invokerStep, List.range_succ]
  | response cid ok msg => simp [invokerStep]
  | tick now => simp [invokerStep]
  | disconnect => simp [invokerStep]

/-- The keys invariant is preserved by every run. -/
theorem invokerRun_keysInv (es : List InvokerEvent) :
    ∀ s : InvokerState, invokerKeysInv s → invokerKeysInv (invokerRun s es) := by
  induction es with
  | nil => intro s h; exact h
  | cons e es ih =>
      intro s h
      exact ih (invokerStep s e) (invokerStep_keysInv s e h)

/-- A call completed with a remote result can only have been completed by
a response event carrying exactly that correlationId and payload. -/
theorem invokerStep_done_remote (s : InvokerState) (e : InvokerEvent)
    (cid : Nat) (r : ServiceResult)
    (h : (cid, CallStatus.done (CallOutcome.remote r)) ∈ (invokerStep s e).calls) :
    (cid, CallStatus.done (CallOutcome.remote r)) ∈ s.calls ∨
      e = InvokerEvent.response cid r.success r.message := by
  cases e with
  | issue d =>
      simp only [invokerStep, List.mem_append, List.mem_singleton] at h
      rcases h with h | h
      · exact Or.inl h
      · exact absurd h (by simp)
  | response cid' ok msg =>
      simp only [invokerStep, List.mem_map] at h
      obtain ⟨c, hc, hfc⟩ := h
      rcases c with ⟨c1, st⟩
      cases st with
      | pending d =>
          have hfc' : (if c1 = cid' then
                (c1, CallStatus.done (CallOutcome.remote ⟨ok, msg⟩))
              else (c1, CallStatus.pending d)) =
              (cid, CallStatus.done (CallOutcome.remote r)) := hfc
          by_cases hcid : c1 = cid'
          · right
            rw [if_pos hcid] at hfc'
            have h1 : c1 = cid := congrArg Prod.fst hfc'
            have h2 : CallStatus.done (CallOutcome.remote ⟨ok, msg⟩) =
                CallStatus.done (CallOutcome.remote r) := congrArg Prod.snd hfc'
            injection h2 with h3
            injection h3 with h4
            rw [hcid.symm.trans h1, ← h4]
          · rw [if_neg hcid] at hfc'
            have h2 : CallStatus.pending d =
                CallStatus.done (CallOutcome.remote r) := congrArg Prod.snd hfc'
            exact absurd h2 (by simp)
      | done o =>
          have hfc' : (c1, CallStatus.done o) =
              (cid, CallStatus.done (CallOutcome.remote r)) := hfc
          exact Or.inl (hfc' ▸ hc)
  | tick now =>
      simp only [invokerStep, List.mem_map] at h
      obtain ⟨c, hc, hfc⟩ := h
      rcases c with ⟨c1, st⟩
      cases st with
      | pending d =>
          have hfc' : (if d ≤ now then
                (c1, CallStatus.done CallOutcome.timedOut)
              else (c1, CallStatus.pending d)) =
              (cid, CallStatus.done (CallOutcome.remote r)) := hfc
          by_cases hd : d ≤ now
          · rw [if_pos hd] at hfc'
            have h2 : CallStatus.done CallOutcome.timedOut =
                CallStatus.done (CallOutcome.remote r) := congrArg Prod.snd hfc'
            exact absurd h2 (by simp)
          · rw [if_neg hd] at hfc'
            have h2 : CallStatus.pending d =
                CallStatus.done (CallOutcome.remote r) := congrArg Prod.snd hfc'
            exact absurd h2 (by simp)
      | done o =>
          have hfc' : (c1, CallStatus.done o) =
              (cid, CallStatus.done (CallOutcome.remote r)) := hfc
          exact Or.inl (hfc' ▸ hc)
  | disconnect =>
      simp only [invokerStep, List.mem_map] at h
      obtain ⟨c, hc, hfc⟩ := h
      rcases c with ⟨c1, st⟩
      cases st with
      | pending d =>
          have h2 : CallStatus.done CallOutcome.disconnected =
              CallStatus.done (CallOutcome.remote r) :=
            congrArg Prod.snd
              (show (c1, CallStatus.done CallOutcome.disconnected) =
                (cid, CallStatus.done (CallOutcome.remote r)) from hfc)
          exact absurd h2 (by simp)
      | done o =>
          have hfc' : (c1, CallStatus.done o) =
              (cid, CallStatus.done (CallOutcome.remote r)) := hfc
          exact Or.inl (hfc' ▸ hc)

/-- Run-level version of `invokerStep_done_remote`. -/
theorem invokerRun_done_remote (es : List InvokerEvent) :
    ∀ (s : InvokerState) (cid : Nat) (r : ServiceResult),
      (cid, CallStatus.done (CallOutcome.remote r)) ∈ (invokerRun s es).calls →
      (cid, CallStatus.done (CallOutcome.remote r)) ∈ s.calls ∨
        InvokerEvent.response cid r.success r.message ∈ es := by
  induction es with
  | nil => intro s cid r h; exact Or.inl h
  | cons e es ih =>
      intro s cid r h
      rcases ih (invokerStep s e) cid r h with h1 | h1
      · rcases invokerStep_done_remote s e cid r h1 with h2 | h2
        · exact Or.inl h2
        · exact Or.inr (h2 ▸ List.mem_cons_self e es)
      · exact Or.inr (List.mem_cons_of_mem e h1)

/-- A completed call's outcome is never changed by any later event. -/
theorem invokerRun_done_stable (es : List InvokerEvent) :
    ∀ (s : InvokerState) (cid : Nat) (o : CallOutcome),
      (cid, CallStatus.done o) ∈ s.calls →
      (cid, CallStatus.done o) ∈ (invokerRun s es).calls := by
  induction es with
  | nil => intro s cid o h; exact h
  | cons e es ih =>
      intro s cid o h
      refine ih (invokerStep s e) cid o ?_
      cases e with
      | issue d => exact List.mem_append_left _ h
      | response cid' ok msg => exact List.mem_map_of_mem _ h
      | tick now => exact List.mem_map_of_mem _ h
      | disconnect => exact List.mem_map_of_mem _ h

/-- C3: for every event sequence processed by the Service Invoker, (a) the
correlationIds in the call table are pairwise distinct, so concurrent
calls occupy distinct slots; (b) a call completed with a remote result
`{success, message}` was completed by a response event carrying exactly
its own correlationId and exactly that payload, never another call's; and
(c) a delivered outcome is final — it survives every continuation of the
event sequence unchanged, so at most one outcome is ever delivered per
call. -/
theorem serviceInvoker_exactly_once_correlated :
    ∀ es : List InvokerEvent,
      ((invokerRun invokerInit es).calls.map Prod.fst).Nodup ∧
      (∀ cid r,
        (cid, CallStatus.done (CallOutcome.remote r)) ∈
            (invokerRun invokerInit es).calls →
          InvokerEvent.response cid r.success r.message ∈ es) ∧
      (∀ es2 cid o,
        (cid, CallStatus.done o) ∈ (invokerRun invokerInit es).calls →
          (cid, CallStatus.done o) ∈
            (invokerRun invokerInit (es ++ es2)).calls) := by
  intro es
  refine ⟨?_, ?_, ?_⟩
  · have h := invokerRun_keysInv es invokerInit (by rfl)
    unfold invokerKeysInv at h
    rw [h]
    exact List.nodup_range _
  · intro cid r h
    rcases invokerRun_done_remote es invokerInit cid r h with h1 | h1
    · exact absurd h1 (by simp [invokerInit])
    · exact h1
  · intro es2 cid o h
    unfold invokerRun at h ⊢
    rw [List.foldl_append]
    exact invokerRun_done_stable es2 _ cid o h

/-- Witness for C3: issuing one call and receiving its response; the
delivered remote outcome corresponds to the response event. -/
theorem serviceInvoker_exactly_once_correlated_witness :
    InvokerEvent.response 0 true "ok" ∈
      [InvokerEvent.issue 5, InvokerEvent.response 0 true "ok"] :=
  (serviceInvoker_exactly_once_correlated
      [InvokerEvent.issue 5, InvokerEvent.response 0 true "ok"]).2.1
    0 ⟨true, "ok"⟩ (by decide)

/-- C4: on a disconnect event, every one of the pending calls — however
many and whatever their remaining deadlines — is completed in that very
step with a disconnection failure (`success = false`); no call remains
pending afterwards, and no call record is lost. -/
theorem disconnect_fails_all_pending :
    ∀ s : InvokerState,
      (invokerStep s InvokerEvent.disconnect).calls.length =
        s.calls.length ∧
      (∀ cid d, (cid, CallStatus.pending d) ∈ s.calls →
        (cid, CallStatus.done CallOutcome.disconnected) ∈
          (invokerStep s InvokerEvent.disconnect).calls) ∧
      (∀ cid d, (cid, CallStatus.pending d) ∉
          (invokerStep s InvokerEvent.disconnect).calls) ∧
      (outcomeResult CallOutcome.disconnected).success = false := by
  intro s
  refine ⟨by simp [invokerStep], ?_, ?_, rfl⟩
  · intro cid d h
    exact List.mem_map_of_mem _ h
  · intro cid d h
    simp only [invokerStep, List.mem_map] at h
    obtain ⟨c, _, hfc⟩ := h
    rcases c with ⟨c1, st⟩
    cases st with
    | pending d1 =>
        have h2 : CallStatus.done CallOutcome.disconnected =
            CallStatus.pending d :=
          congrArg Prod.snd
            (show (c1, CallStatus.done CallOutcome.disconnected) =
              (cid, CallStatus.pending d) from hfc)
        exact absurd h2 (by simp)
    | done o =>
        have h2 : CallStatus.done o = CallStatus.pending d :=
          congrArg Prod.snd
            (show (c1, CallStatus.done o) =
              (cid, CallStatus.pending d) from hfc)
        exact absurd h2 (by simp)

/-- Witness for C4: a state with one pending call (deadline far in the
future) completes with the disconnection failure at the disconnect step. -/
theorem disconnect_fails_all_pending_witness :
    (0, CallStatus.done CallOutcome.disconnected) ∈
      (invokerStep ⟨1, [(0, CallStatus.pending 100)]⟩
        InvokerEvent.disconnect).calls :=
  (disconnect_fails_all_pending ⟨1, [(0, CallStatus.pending 100)]⟩).2.1
    0 100 (by decide)

/-- If the id never resolves and the flag is never set, the wait loop runs
through its full fuel and times out with the transport closed. -/
theorem connectAux_never_resolved (resolve : Nat → Option NodeAdvertisement)
    (ack cancel : Nat → Bool)
    (hr : ∀ t, resolve t = none) (hc : ∀ t, cancel t = false) :
    ∀ fuel t, connectAux resolve ack cancel ConnectPhase.resolving t fuel =
      ⟨none, false, t + fuel⟩ := by
  intro fuel
  induction fuel with
  | zero => intro t; rfl
  | succ n ih =>
      intro t
      simp only [connectAux, hc, hr, Bool.false_eq_true, if_false]
      rw [ih (t + 1)]
      have h : t + 1 + n = t + (n + 1) := by omega
      rw [h]

/-- C5: if no advertisement for the requested id ever arrives and the
cancelFlag is never set, `connect` returns null after exactly the full
timeout budget — not immediately and not after twice the timeout — with
the transport closed; the "ghost" scenario is the instance with a 2-second
timeout. -/
theorem connect_unknown_id_full_timeout :
    ∀ (resolve : Nat → Option NodeAdvertisement) (ack cancel : Nat → Bool)
      (timeoutTicks : Nat),
      (∀ t, resolve t = none) → (∀ t, cancel t = false) →
      connect resolve ack cancel timeoutTicks =
        ⟨none, false, timeoutTicks⟩ := by
  intro resolve ack cancel timeoutTicks hr hc
  unfold connect
  have h := connectAux_never_resolved resolve ack cancel hr hc timeoutTicks 0
  simpa using h

/-- Witness for C5: the "ghost" scenario — an id that is never advertised,
a null cancelFlag and a 2-tick timeout: null is returned at tick 2. -/
theorem connect_unknown_id_full_timeout_witness :
    connect (fun _ => none) (fun _ => false) (fun _ => false) 2 =
      ⟨none, false, 2⟩ :=
  connect_unknown_id_full_timeout (fun _ => none) (fun _ => false)
    (fun _ => false) 2 (fun _ => rfl) (fun _ => rfl)

/-- If the handshake acknowledgement never arrives and the cancelFlag
becomes set at tick `k` before the fuel runs out, the wait loop — in
whatever phase — returns at tick `k` exactly, with no connection and the
transport closed. -/
theorem connectAux_cancelled_at (resolve : Nat → Option NodeAdvertisement)
    (ack cancel : Nat → Bool) (k : Nat)
    (hack : ∀ t, ack t = false)
    (hc : ∀ t, cancel t = decide (k ≤ t)) :
    ∀ fuel t phase, t ≤ k → k < t + fuel →
      connectAux resolve ack cancel phase t fuel = ⟨none, false, k⟩ := by
  intro fuel
  induction fuel with
  | zero => intro t phase h1 h2; omega
  | succ n ih =>
      intro t phase h1 h2
      by_cases hk : t = k
      · subst hk
        simp only [connectAux, hc, decide_eq_true_eq]
        rw [if_pos (le_refl t)]
      · have ht : t < k := lt_of_le_of_ne h1 hk
        simp only [connectAux, hc, decide_eq_true_eq]
        rw [if_neg (by omega)]
        cases phase with
        | resolving =>
            cases hres : resolve t with
            | some ad =>
                exact ih (t + 1) (ConnectPhase.handshaking ad)
                  (by omega) (by omega)
            | none =>
                exact ih (t + 1) ConnectPhase.resolving (by omega) (by omega)
        | handshaking ad =>
            rw [hack t]
            simp only [Bool.false_eq_true, if_false]
            exact ih (t + 1) (ConnectPhase.handshaking ad)
              (by omega) (by omega)

/-- C7: if the cancelFlag becomes set at tick `k` before the timeout
elapses and the handshake has not completed, `connect` returns null at
tick `k` exactly — within one polling interval of the flag being set, not
after the full timeout — and the partially-opened transport is closed
(`transportOpen = false`), whatever the Discovery resolution did. -/
theorem connect_cancel_prompt :
    ∀ (resolve : Nat → Option NodeAdvertisement) (ack cancel : Nat → Bool)
      (k timeoutTicks : Nat),
      (∀ t, ack t = false) →
      (∀ t, cancel t = decide (k ≤ t)) →
      k < timeoutTicks →
      connect resolve ack cancel timeoutTicks = ⟨none, false, k⟩ := by
  intro resolve ack cancel k timeoutTicks hack hc hk
  exact connectAux_cancelled_at resolve ack cancel k hack hc timeoutTicks 0
    ConnectPhase.resolving (Nat.zero_le k) (by omega)

/-- Witness for C7: the node resolves right away, the acknowledgement
never arrives, and the flag is set at tick 1 of a 5-tick timeout: connect
aborts at tick 1 with the transport closed. -/
theorem connect_cancel_prompt_witness :
    connect (fun _ => some sampleAdvertisement) (fun _ => false)
      (fun t => decide (1 ≤ t)) 5 = ⟨none, false, 1⟩ :=
  connect_cancel_prompt (fun _ => some sampleAdvertisement) (fun _ => false)
    (fun t => decide (1 ≤ t)) 1 5 (fun _ => rfl) (fun _ => rfl) (by decide)

/-- The per-subscriber view distributes over concatenated log segments. -/
theorem perSubscriberLog_append (sid : Nat)
    (a b : List (Nat × Nat × ExtendedRobotState)) :
    perSubscriberLog sid (a ++ b) =
      perSubscriberLog sid a ++ perSubscriberLog sid b := by
  unfold perSubscriberLog
  rw [List.filter_append, List.map_append]

/-- A subscriber registered exactly once observes, for each dispatched
frame, exactly its own single invocation: its view of the dispatch log of
any indexed frame list is that frame list itself. -/
theorem channelDispatch_perSubscriber (subs : List Nat) (sid : Nat)
    (h : subs.count sid = 1) :
    ∀ pairs : List (Nat × ExtendedRobotState),
      perSubscriberLog sid (channelDispatch subs pairs) = pairs := by
  intro pairs
  induction pairs with
  | nil => rfl
  | cons p rest ih =>
      rcases p with ⟨i, f⟩
      have hstep : channelDispatch subs ((i, f) :: rest) =
          subs.map (fun sid' => (sid', (i, f))) ++ channelDispatch subs rest :=
        rfl
      rw [hstep, perSubscriberLog_append, ih]
      have h1 : perSubscriberLog sid
          (subs.map (fun sid' => (sid', (i, f)))) = [(i, f)] := by
        unfold perSubscriberLog
        have h2 : (subs.map (fun sid' => (sid', (i, f)))).filter
            (fun x => x.1 == sid) =
            (subs.filter (fun sid' => sid' == sid)).map
              (fun sid' => (sid', (i, f))) :=
          List.filter_map _ _
        rw [h2, List.filter_beq, h]
        rfl
      rw [h1]
      rfl

/-- C8: for a callback registered exactly once, the sequence of frames it
observes on a connection is exactly the arrival sequence: one invocation
per incoming frame, arrival indices pairwise increasing (non-decreasing
arrival order) and without duplicates (no frame delivered twice). -/
theorem subscription_in_order_exactly_once :
    ∀ (subs : List Nat) (sid : Nat) (frames : List ExtendedRobotState),
      subs.count sid = 1 →
      perSubscriberLog sid (subscriptionLog subs frames) = frames.enum ∧
      ((perSubscriberLog sid (subscriptionLog subs frames)).map
        Prod.fst).Nodup ∧
      List.Pairwise (· < ·)
        ((perSubscriberLog sid (subscriptionLog subs frames)).map
          Prod.fst) := by
  intro subs sid frames h
  have h1 : perSubscriberLog sid (subscriptionLog subs frames) =
      frames.enum :=
    channelDispatch_perSubscriber subs sid h frames.enum
  refine ⟨h1, ?_, ?_⟩
  · rw [h1, List.enum_map_fst]
    exact List.nodup_range _
  · rw [h1, List.enum_map_fst]
    exact List.pairwise_lt_range _

/-- Witness for C8: one subscriber (registration id 7), one frame. -/
theorem subscription_in_order_exactly_once_witness :
    perSubscriberLog 7 (subscriptionLog [7] [sampleState]) =
      [sampleState].enum ∧
    ((perSubscriberLog 7 (subscriptionLog [7] [sampleState])).map
      Prod.fst).Nodup ∧
    List.Pairwise (· < ·)
      ((perSubscriberLog 7 (subscriptionLog [7] [sampleState])).map
        Prod.fst) :=
  subscription_in_order_exactly_once [7] 7 [sampleState] (by decide)

/-- One step of the connection state machine preserves the handshake
invariants. -/
theorem connStep_inv (s : ConnState) (e : ConnEvent)
    (h1 : s.connected = true → s.handshakeDone = true)
    (h2 : s.handshakeDone = false → s.deliveredFrames = []) :
    ((connStep s e).connected = true → (connStep s e).handshakeDone = true) ∧
    ((connStep s e).handshakeDone = false →
      (connStep s e).deliveredFrames = []) := by
  cases e with
  | handshakeComplete =>
      exact ⟨fun _ => rfl, by simp [connStep]⟩
  | frameArrived f =>
      by_cases hc : s.connected = true
      · have hhd := h1 hc
        constructor
        · intro _
          simpa [connStep, hc] using hhd
        · intro hcontra
          rw [show (connStep s (ConnEvent.frameArrived f)).handshakeDone =
            s.handshakeDone by simp [connStep, hc]] at hcontra
          rw [hhd] at hcontra
          cases hcontra
      · have hc' : s.connected = false := by
          cases hcb : s.connected
          · rfl
          · exact absurd hcb hc
        simp only [connStep, hc', Bool.false_eq_true, if_false]
        exact ⟨fun h => h.elim, h2⟩
  | disconnectConn =>
      constructor
      · intro hcontra
        cases hcontra
      · exact h2

/-- The handshake invariants hold in every state reachable from a state
satisfying them. -/
theorem connFold_inv (es : List ConnEvent) :
    ∀ s : ConnState,
      (s.connected = true → s.handshakeDone = true) →
      (s.handshakeDone = false → s.deliveredFrames = []) →
      (((es.foldl connStep s).connected = true →
          (es.foldl connStep s).handshakeDone = true) ∧
        ((es.foldl connStep s).handshakeDone = false →
          (es.foldl connStep s).deliveredFrames = [])) := by
  induction es with
  | nil => intro s h1 h2; exact ⟨h1, h2⟩
  | cons e es ih =>
      intro s h1 h2
      have h := connStep_inv s e h1 h2
      exact ih (connStep s e) h.1 h.2

/-- C9: in every reachable state of a connection, `connected = true` only
after a completed handshake; while the handshake has never completed no
frame has been delivered to the callbacks; and a frame that arrives while
the connection is not marked connected is dropped, never delivered. -/
theorem connected_only_after_handshake :
    ∀ es : List ConnEvent,
      ((connRun es).connected = true → (connRun es).handshakeDone = true) ∧
      ((connRun es).handshakeDone = false →
        (connRun es).deliveredFrames = []) ∧
      (∀ (s : ConnState) (f : ExtendedRobotState), s.connected = false →
        connStep s (ConnEvent.frameArrived f) = s) := by
  intro es
  have h := connFold_inv es ⟨false, false, []⟩ (by intro h; cases h)
    (fun _ => rfl)
  refine ⟨h.1, h.2, ?_⟩
  intro s f hc
  simp [connStep, hc]

/-- Witness for C9: a frame arriving before any handshake is dropped —
nothing is delivered. -/
theorem connected_only_after_handshake_witness :
    (connRun [ConnEvent.frameArrived sampleState]).deliveredFrames = [] :=
  (connected_only_after_handshake
    [ConnEvent.frameArrived sampleState]).2.1 (by decide)

end Raisin
